import Mathlib

/-!
Verification of the univ-fs core layer (backend-independent virtual file system).

The definitions below are shallow embeddings of the TypeScript sources:
  * `src/src/core/core.ts`            -- the stream-based iteration (AbstractFileSystem,
                                         AbstractFileSystemObject, AbstractDirectory,
                                         AbstractFile, ReadStream, WriteStream)
  * `src/src/core/AbstractWriteStream.ts`, `src/src/core/AbstractFile.ts`
  * `src/src/util.ts`                 -- path utilities
  * `src/unnamed/part_000`            -- AbstractFile (getSource / write / _xmit)
  * `src/unnamed/part_004`            -- AbstractEntry (copy / move / delete)
  * `src/unnamed/part_006`            -- AbstractFileSystem (head / _checkPath / ...)
  * `src/unnamed/part_007`            -- AbstractDirectory (_xmit / mkcol / list)

Asynchronous methods are embedded as pure functions; a JS `throw`/rejected promise is an
`Except.error` (or an explicit `Option FsError` component where partially-mutated state
must survive the failure, as it does across a JS `try`/`catch`).  The storage backend
(out of scope for the core, specified only by its primitive contract) is modelled as an
in-memory map from paths to nodes.
-/

namespace UnivFs

/-- Canonical error kinds of the error taxonomy (src/core/errors.ts names; spec section 4.5). -/
inductive ErrName where
  | NotFound
  | NotReadable
  | NoModificationAllowed
  | InvalidModification
  | TypeMismatch
  | PathExists
  | SecurityError
  | SyntaxError
  | NotSupported
  deriving DecidableEq, Repr

/-- A normalized file-system error: its taxonomy kind and the path it reports. -/
structure FsError where
  name : ErrName
  path : String
  deriving DecidableEq, Repr

/-- Stats record: `size` present iff the entry is a file (spec section 3). -/
structure Stats where
  size : Option Nat
  deriving DecidableEq, Repr

/-- A stored node of the in-memory backend model: a file with byte content, or a directory. -/
inductive Node where
  | file (content : List Nat)
  | dir
  deriving DecidableEq, Repr

/-- In-memory backend state: an association list from (normalized) paths to nodes.
The concrete backends of the repository (e.g. the node adapter) are out of scope for the
core layer; this model implements the primitive contract of spec section 6. -/
structure MemFS where
  entries : List (String × Node)
  deriving DecidableEq, Repr

/-- Look a path up in the backend. -/
def MemFS.lookup (fs : MemFS) (p : String) : Option Node :=
  (fs.entries.find? (fun kv => kv.1 = p)).map Prod.snd

/-- Replace or insert a file node (the backend `_write` effect). -/
def MemFS.setFile (fs : MemFS) (p : String) (content : List Nat) : MemFS :=
  ⟨(p, Node.file content) :: fs.entries.filter (fun kv => kv.1 ≠ p)⟩

/-- Replace or insert a directory node (the backend `_mkcol` effect). -/
def MemFS.setDir (fs : MemFS) (p : String) : MemFS :=
  ⟨(p, Node.dir) :: fs.entries.filter (fun kv => kv.1 ≠ p)⟩

/-- Remove a node (the backend `_rm` / `_rmdir` effect). -/
def MemFS.remove (fs : MemFS) (p : String) : MemFS :=
  ⟨fs.entries.filter (fun kv => kv.1 ≠ p)⟩

/-- Backend primitive `_head`: stats of an existing node (a file reports its byte length as
`size`, a directory reports no `size`); a missing path rejects with `NotFound`.
This is the behaviour every adapter exhibits (cf. `NodeFileSystem.stat`,
`NodeFileSystemObject.getStats` in the sources: ENOENT maps to NotFoundError, a directory
gets stats without `size`, a file gets `size: stats.size`). -/
def MemFS.headPrim (fs : MemFS) (p : String) : Except FsError Stats :=
  match fs.lookup p with
  | none => .error ⟨.NotFound, p⟩
  | some (.file c) => .ok ⟨some c.length⟩
  | some .dir => .ok ⟨none⟩

/- ## Path utilities (src/src/util.ts) -/

/-- Split a character list at every slash, as `path.split("/")` does. -/
def splitOnSlash : List Char → List (List Char)
  | [] => [[]]
  | c :: cs =>
      if c = '/' then [] :: splitOnSlash cs
      else
        match splitOnSlash cs with
        | [] => [[c]]
        | p :: ps => (c :: p) :: ps

/-- util.ts `getPathParts`: split on slash; drop empty parts and `.`; `..` pops the last
collected part and throws a SyntaxError when there is nothing to pop. -/
def getPathParts (path : String) : Except FsError (List String) :=
  go (splitOnSlash path.data) []
where
  /-- Walk the raw parts keeping a reversed stack of accepted parts. -/
  go : List (List Char) → List String → Except FsError (List String)
    | [], acc => .ok acc.reverse
    | p :: ps, acc =>
        if p = ['.', '.'] then
          match acc with
          | [] => .error ⟨.SyntaxError, path⟩
          | _ :: rest => go ps rest
        else if p = ['.'] then go ps acc
        else if p = [] then go ps acc
        else go ps (⟨p⟩ :: acc)

/-- util.ts `normalizePath`: "/" followed by the parts joined with "/". -/
def normalizePath (path : String) : Except FsError String :=
  (getPathParts path).map (fun parts => "/" ++ String.intercalate "/" parts)

/-- util.ts `getName`: the last part, or "" when there is none. -/
def getName (path : String) : Except FsError String :=
  (getPathParts path).map (fun parts => (parts.getLast?).getD "")

/-- util.ts `joinPaths`: parts of both paths concatenated, joined with "/" after a leading "/". -/
def joinPaths (p1 p2 : String) : Except FsError String := do
  let parts1 ← getPathParts p1
  let parts2 ← getPathParts p2
  return "/" ++ String.intercalate "/" (parts1 ++ parts2)

/-- util.ts `getParentPath`: "/" when at most one part remains, else all but the last part. -/
def getParentPath (path : String) : Except FsError String :=
  (getPathParts path).map fun parts =>
    if parts.length ≤ 1 then "/" else "/" ++ String.intercalate "/" (parts.dropLast)

/-- JS `path.endsWith("/")`. -/
def endsWithSlash (p : String) : Bool :=
  p.data.getLast? = some '/'

/-- Modelled from the spec: the INVALID_CHARS test used by part_006 `_checkPath` (the
canonical util module exporting it is not under src/).  Follows util.ts
`isIllegalFileName` (control characters and the characters listed there), minus the path
separator which is of course legal inside a whole path. -/
def hasInvalidChars (path : String) : Bool :=
  path.data.any fun c =>
    c.toNat ≤ 0x1f ∨ (0x7f ≤ c.toNat ∧ c.toNat ≤ 0x9f) ∨
      c ∈ ['\\', ':', '*', '?', '<', '>', '|', '"']

/-- part_006 `AbstractFileSystem._checkPath`: reject a path containing invalid characters
with a SyntaxError, otherwise return the normalized path. -/
def checkPath (path : String) : Except FsError String :=
  if hasInvalidChars path then .error ⟨.SyntaxError, path⟩
  else normalizePath path

/-- Modelled from the spec: `createError` (src/core/errors.ts is not under src/).
Spec section 4.5 classifies every backend-native failure into the taxonomy exactly once,
and section 4.1 specifies `head` as failing with NotFound when the path is absent,
TypeMismatch on a wrong requested kind, and NotReadable only "if the backend primitive
fails for any other reason"; the repository's own tests (part_002 "nothing",
basic.ts "add empty file") expect the NotFound name to survive the fs-level wrappers.
Hence an error that is already classified is returned unchanged, and only an
unclassified failure is replaced by a fresh error of the requested kind. -/
def createError (name : ErrName) (path : String) (e : Option FsError) : FsError :=
  match e with
  | some err => err
  | none => ⟨name, path⟩

/- ## File/Directory dispatch from Stats (claim C8) -/

/-- Kind of an entry handle. -/
inductive EKind where
  | f
  | d
  deriving DecidableEq, Repr

/-- JS truthiness of `stats.size` (a non-negative integer or undefined): `0` and
`undefined` are falsy, every other number is truthy. -/
def jsNumTruthy : Option Nat → Bool
  | some n => n ≠ 0
  | none => false

/-- core.ts `AbstractFileSystem._prepareXmit` (lines 151/154) and core.ts
`AbstractDirectory._xmit` (lines 264/269) dispatch: `stats.size ? getFile : getDirectory`. -/
def coreSizeDispatch (stats : Stats) : EKind :=
  if jsNumTruthy stats.size then .f else .d

/-- part_007 `AbstractDirectory._xmit` (lines 127/132) and part_006
`AbstractFileSystem.getEntry` (line 183) dispatch: `stats.size != null ? getFile : getDirectory`. -/
def canonSizeDispatch (stats : Stats) : EKind :=
  match stats.size with
  | some _ => .f
  | none => .d

/- ## Write stream (src/src/core/AbstractWriteStream.ts, AbstractStream of part_001) -/

/-- Seek origin (core.ts `SeekOrigin`). -/
inductive SeekOrigin where
  | begin
  | current
  | fin
  deriving DecidableEq, Repr

/-- Observable state of one write stream: the `changed` flag, the cursor, the open-time
`create` flag from OpenWriteOptions, hook registration, and counters for the after-hook
invocations performed by `close()`. -/
structure WriteStreamSt where
  changed : Bool
  position : Nat
  createOpt : Bool
  ignoreHook : Bool
  hasAfterPost : Bool
  hasAfterPut : Bool
  afterPostCalls : Nat
  afterPutCalls : Nat
  fileSize : Nat
  deriving DecidableEq, Repr

/-- Operations a caller can perform on an open write stream before closing it. -/
inductive WSOp where
  | write (len : Nat)
  | truncate (size : Nat)
  | seek (offset : Int) (origin : SeekOrigin)
  deriving DecidableEq, Repr

/-- Whether an operation is one of the mutating calls (`write` / `truncate`). -/
def WSOp.isMutating : WSOp → Bool
  | .write _ => true
  | .truncate _ => true
  | .seek _ _ => false

/-- AbstractStream.seek (part_001): compute the target from the origin, clamp it into
`[0, size]`, store it as the new position. -/
def wsSeek (s : WriteStreamSt) (offset : Int) (origin : SeekOrigin) : WriteStreamSt :=
  let size : Int := s.fileSize
  let start : Int :=
    match origin with
    | .begin => offset
    | .current => (s.position : Int) + offset
    | .fin => size + offset
  let start := if start < 0 then 0 else if size < start then size else start
  { s with position := start.toNat }

/-- Apply one stream operation, per AbstractWriteStream.ts: `write` advances the position
by the written amount and sets `changed`; `truncate` clamps the position down and sets
`changed`; `seek` only moves the cursor. -/
def wsApply (s : WriteStreamSt) : WSOp → WriteStreamSt
  | .write len => { s with position := s.position + len, changed := true }
  | .truncate size =>
      let s := if size < s.position then { s with position := size } else s
      { s with changed := true }
  | .seek offset origin => wsSeek s offset origin

/-- Run a sequence of stream operations. -/
def wsRun (s : WriteStreamSt) (ops : List WSOp) : WriteStreamSt :=
  ops.foldl wsApply s

/-- AbstractWriteStream.close (lines 24-39): reset the position; if nothing was changed,
return without firing any hook; otherwise fire afterPost when the stream was opened in
create mode, else afterPut, honouring `ignoreHook`. -/
def wsClose (s : WriteStreamSt) : WriteStreamSt :=
  let s := { s with position := 0 }
  if ¬s.changed then s
  else if ¬s.ignoreHook ∧ s.hasAfterPost ∧ s.createOpt then
    { s with afterPostCalls := s.afterPostCalls + 1 }
  else if ¬s.ignoreHook ∧ s.hasAfterPut ∧ ¬s.createOpt then
    { s with afterPutCalls := s.afterPutCalls + 1 }
  else s

/-- A freshly opened write stream: nothing changed yet, cursor at 0, no hook fired. -/
def initWS (createOpt ignoreHook hasAfterPost hasAfterPut : Bool) (fileSize : Nat) :
    WriteStreamSt :=
  ⟨false, 0, createOpt, ignoreHook, hasAfterPost, hasAfterPut, 0, 0, fileSize⟩

/- ## Read stream (core.ts ReadStream, lines 480-512) -/

/-- Observable state of one read stream. -/
structure ReadStreamSt where
  handled : Bool
  ignoreHook : Bool
  hasAfterGet : Bool
  afterGetCalls : Nat
  deriving DecidableEq, Repr

/-- Operations on an open read stream: `read` (sets `handled`), `seek`. -/
inductive RSOp where
  | read (size : Option Nat)
  | seek (offset : Int) (origin : SeekOrigin)
  deriving DecidableEq, Repr

/-- core.ts ReadStream.read sets `handled`; seek only moves the cursor (not tracked here). -/
def rsApply (s : ReadStreamSt) : RSOp → ReadStreamSt
  | .read _ => { s with handled := true }
  | .seek _ _ => s

/-- Run a sequence of read-stream operations. -/
def rsRun (s : ReadStreamSt) (ops : List RSOp) : ReadStreamSt :=
  ops.foldl rsApply s

/-- core.ts ReadStream.close (lines 493-498): after `_close()`, fire afterGet whenever it
is registered and `ignoreHook` is not set -- with no guard on `handled`. -/
def rsClose (s : ReadStreamSt) : ReadStreamSt :=
  if ¬s.ignoreHook ∧ s.hasAfterGet then { s with afterGetCalls := s.afterGetCalls + 1 }
  else s

/-- A freshly opened read stream. -/
def initRS (ignoreHook hasAfterGet : Bool) : ReadStreamSt :=
  ⟨false, ignoreHook, hasAfterGet, 0⟩

/- ## FileSystem.head with the hook pipeline (part_006 lines 253-306, core.ts lines 89-101) -/

/-- Requested entry kind (part_006 `EntryType`). -/
inductive EntryType where
  | file
  | dir
  deriving DecidableEq, Repr

/-- The head-related hook slots of the FileSystem options: an optional `beforeHead`
(which may supply stats, short-circuiting the primitive) and whether an `afterHead`
callback is registered. -/
structure HeadHooks where
  beforeHead : Option (String → Option Stats)
  hasAfterHead : Bool

/-- No head hooks registered. -/
def noHeadHooks : HeadHooks := ⟨none, false⟩

/-- HeadOptions: `ignoreHook` plus the optional requested kind. -/
structure HeadOptions where
  ignoreHook : Bool
  typ : Option EntryType
  deriving DecidableEq, Repr

/-- Instrumented outcome of a head call: the returned stats or thrown error, how many
times the backend primitive `_head` ran, and the `afterHead` invocations with their
arguments. -/
structure HeadOutcome where
  result : Except FsError Stats
  primCalls : Nat
  afterCalls : List (String × Stats)
  deriving Repr

/-- part_006 `AbstractFileSystem.head` (lines 253-306), called without an `errors`
collector so that `_handleError` throws.  Steps: default the requested type to Directory
for a path ending in "/"; `_checkPath`; return empty stats when a Directory is requested
but the backend does not support directories; consult `beforeHead` unless `ignoreHook`;
run `_head` only when the hook supplied nothing; validate the requested type against the
stats (TypeMismatch); fire `afterHead`; return the stats.  Any error thrown inside is
caught and re-raised through `createError` with the NotReadable name, which leaves an
already-classified error unchanged. -/
def fsHead (supportDir : Bool) (hooks : HeadHooks) (fs : MemFS) (path : String)
    (options : HeadOptions) : HeadOutcome :=
  let options :=
    if options.typ = none ∧ endsWithSlash path then { options with typ := some .dir }
    else options
  match checkPath path with
  | .error e => ⟨.error (createError .NotReadable path (some e)), 0, []⟩
  | .ok checked =>
    if options.typ = some .dir ∧ supportDir = false then ⟨.ok ⟨none⟩, 0, []⟩
    else
      let hookStats : Option Stats :=
        if options.ignoreHook = false then
          match hooks.beforeHead with
          | some f => f checked
          | none => none
        else none
      let fromPrim : Bool := hookStats = none
      let primResult : Except FsError Stats :=
        match hookStats with
        | some s => .ok s
        | none => fs.headPrim checked
      let prim : Nat := if fromPrim then 1 else 0
      match primResult with
      | .error e => ⟨.error (createError .NotReadable path (some e)), prim, []⟩
      | .ok stats =>
        if stats.size.isSome ∧ options.typ = some .dir then
          ⟨.error (createError .NotReadable path (some ⟨.TypeMismatch, checked⟩)), prim, []⟩
        else if stats.size = none ∧ options.typ = some .file then
          ⟨.error (createError .NotReadable path (some ⟨.TypeMismatch, checked⟩)), prim, []⟩
        else
          let afters :=
            if options.ignoreHook = false ∧ hooks.hasAfterHead then [(checked, stats)] else []
          ⟨.ok stats, prim, afters⟩

/-- core.ts `AbstractFileSystem.head` (lines 89-101): consult `beforeHead` unless
`ignoreHook`; run `_head` only when the hook supplied nothing (its error propagates
unwrapped); fire `afterHead` with the stats about to be returned. -/
def coreHead (hooks : HeadHooks) (fs : MemFS) (path : String) (ignoreHook : Bool) :
    HeadOutcome :=
  let hookStats : Option Stats :=
    if ignoreHook = false then
      match hooks.beforeHead with
      | some f => f path
      | none => none
    else none
  match hookStats with
  | some s =>
      let afters := if ignoreHook = false ∧ hooks.hasAfterHead then [(path, s)] else []
      ⟨.ok s, 0, afters⟩
  | none =>
      match fs.headPrim path with
      | .error e => ⟨.error e, 1, []⟩
      | .ok stats =>
          let afters := if ignoreHook = false ∧ hooks.hasAfterHead then [(path, stats)] else []
          ⟨.ok stats, 1, afters⟩

/- ## AbstractFile.getSource (part_000 lines 261-275) -/

/-- The read-side hook slots: `beforeGet` may supply a source, `afterGet` is a
fire-and-forget notification. -/
structure GetHooks where
  beforeGet : Option (String → Option (List Nat))
  hasAfterGet : Bool

/-- No read hooks registered. -/
def noGetHooks : GetHooks := ⟨none, false⟩

/-- Instrumented outcome of a getSource call. -/
structure GetOutcome where
  result : Except FsError (List Nat)
  primCalls : Nat
  afterCalls : List (String × List Nat)
  deriving Repr

/-- Backend primitive `_getSource`: the bytes of an existing file; NotFound when absent,
TypeMismatch on a directory. -/
def getSourcePrim (fs : MemFS) (path : String) : Except FsError (List Nat) :=
  match fs.lookup path with
  | some (.file c) => .ok c
  | some .dir => .error ⟨.TypeMismatch, path⟩
  | none => .error ⟨.NotFound, path⟩

/-- part_000 `AbstractFile.getSource` (lines 261-275): consult `beforeGet` unless
`ignoreHook`; run `_getSource` only when the hook supplied nothing; then, unless
`ignoreHook`, fire `afterGet` with the obtained source (fire-and-forget, its own
failures are swallowed); return the source. -/
def fileGetSource (hooks : GetHooks) (fs : MemFS) (path : String) (ignoreHook : Bool) :
    GetOutcome :=
  let hookSrc : Option (List Nat) :=
    if ignoreHook = false then
      match hooks.beforeGet with
      | some f => f path
      | none => none
    else none
  match hookSrc with
  | some src =>
      let afters := if ignoreHook = false ∧ hooks.hasAfterGet then [(path, src)] else []
      ⟨.ok src, 0, afters⟩
  | none =>
      match getSourcePrim fs path with
      | .error e => ⟨.error e, 1, []⟩
      | .ok src =>
          let afters := if ignoreHook = false ∧ hooks.hasAfterGet then [(path, src)] else []
          ⟨.ok src, 1, afters⟩

/- ## AbstractFile.write (part_000 lines 189-251) -/

/-- The write-side hook slots: `beforePost` / `beforePut` return true to take over the
whole write; `afterPost` / `afterPut` are fire-and-forget notifications. -/
structure WriteHooks where
  beforePost : Option (String → List Nat → Bool)
  beforePut : Option (String → List Nat → Bool)
  hasAfterPost : Bool
  hasAfterPut : Bool

/-- No write hooks registered. -/
def noWriteHooks : WriteHooks := ⟨none, none, false, false⟩

/-- WriteOptions of the whole-file write: optional `append` and `create`. -/
structure WriteOpts where
  append : Option Bool
  create : Option Bool
  deriving DecidableEq, Repr

/-- Instrumented outcome of a whole-file write: result, resulting backend state, number
of `_write` primitive executions, the create-vs-overwrite mode that was decided (none
when the call failed before deciding), and the after-hook invocations. -/
structure WriteOutcome where
  result : Except FsError Unit
  fsAfter : MemFS
  primWrites : Nat
  createMode : Option Bool
  afterPostCalls : List (String × List Nat)
  afterPutCalls : List (String × List Nat)
  deriving Repr

/-- Second half of part_000 `AbstractFile.write` once `create` has been decided:
rebuild the options as `append: options?.append ?? false, create`; let `beforePost`
(create) or `beforePut` (overwrite) take over the whole write; otherwise run the backend
`_write` (replace the content, or extend it when `append`), then fire `afterPost` /
`afterPut` (fire-and-forget, failures logged and swallowed). -/
def fileWriteGo (hooks : WriteHooks) (fs : MemFS) (path : String) (src : List Nat)
    (append0 : Option Bool) (create : Bool) : WriteOutcome :=
  let app : Bool := append0.getD false
  let handled : Bool :=
    if create then
      match hooks.beforePost with
      | some f => f path src
      | none => false
    else
      match hooks.beforePut with
      | some f => f path src
      | none => false
  if handled then ⟨.ok (), fs, 0, some create, [], []⟩
  else
    let old : List Nat :=
      match fs.lookup path with
      | some (.file c) => c
      | _ => []
    let fs1 := fs.setFile path (if app then old ++ src else src)
    let afterPosts := if create ∧ hooks.hasAfterPost then [(path, src)] else []
    let afterPuts := if ¬create ∧ hooks.hasAfterPut then [(path, src)] else []
    ⟨.ok (), fs1, 1, some create, afterPosts, afterPuts⟩

/-- part_000 `AbstractFile.write` (lines 189-251).  Decide create-vs-overwrite by
checking existence first (`this.head()`, which with no hooks registered is the backend
`_head`): when the path exists, a truthy `options.create` is a fatal PathExists and the
mode is overwrite; when the head fails with NotFound, `options.create === false` is a
fatal NotFound and the mode is create; any other head failure is re-thrown through
`createError` (which keeps an already-classified error).  Then run `fileWriteGo`. -/
def fileWrite (hooks : WriteHooks) (fs : MemFS) (path : String) (src : List Nat)
    (options : Option WriteOpts) : WriteOutcome :=
  match fs.headPrim path with
  | .ok _ =>
      if (options.bind (fun o => o.create)).getD false then
        ⟨.error ⟨.PathExists, path⟩, fs, 0, none, [], []⟩
      else fileWriteGo hooks fs path src (options.bind (fun o => o.append)) false
  | .error e =>
      if e.name = .NotFound then
        if options.bind (fun o => o.create) = some false then
          ⟨.error (createError .NotFound path (some e)), fs, 0, none, [], []⟩
        else fileWriteGo hooks fs path src (options.bind (fun o => o.append)) true
      else ⟨.error (createError .NotReadable path (some e)), fs, 0, none, [], []⟩

/- ## AbstractFile.openWriteStream (core.ts lines 426-456) -/

/-- The stream-vintage write hooks: `beforePut` / `beforePost` may supply a write stream
(modelled as returning true when they do). -/
structure OWSHooks where
  beforePut : Option (String → Bool)
  beforePost : Option (String → Bool)

/-- No stream write hooks registered. -/
def noOWSHooks : OWSHooks := ⟨none, none⟩

/-- Instrumented outcome of opening a write stream: the create flag the stream carries on
success (or the thrown error), and whether the stream came from a hook rather than
`_openWriteStream`. -/
structure OWSOutcome where
  result : Except FsError Bool
  fromHook : Bool
  deriving Repr

/-- core.ts `AbstractFile.openWriteStream` (lines 426-456): `stat` the path.  If it
exists: `options.create === true` is a fatal PathExists; otherwise the stream is opened
with `create = false` (overwrite), consulting `beforePut`.  If the stat fails with
NotFound: `options.create === false` re-throws the NotFound; otherwise the stream is
opened with `create = true`, consulting `beforePost`.  Any other stat failure is
re-thrown. -/
def coreOpenWriteStream (hooks : OWSHooks) (fs : MemFS) (path : String)
    (createOpt : Option Bool) (ignoreHook : Bool) : OWSOutcome :=
  match fs.headPrim path with
  | .ok _ =>
      if createOpt = some true then ⟨.error ⟨.PathExists, path⟩, false⟩
      else
        let fromHook :=
          if ignoreHook = false then
            match hooks.beforePut with
            | some f => f path
            | none => false
          else false
        ⟨.ok false, fromHook⟩
  | .error e =>
      if e.name = .NotFound then
        if createOpt = some false then ⟨.error e, false⟩
        else
          let fromHook :=
            if ignoreHook = false then
              match hooks.beforePost with
              | some f => f path
              | none => false
            else false
          ⟨.ok true, fromHook⟩
      else ⟨.error e, false⟩

/- ## The copy loop of core.ts AbstractFile._xmit (lines 363-398) -/

/-- JavaScript values relevant to the copy loop: `null`, a pending `Promise` object
(the value of `rs.read()` when it is not awaited), or a byte buffer (the value a read
would resolve to if it were awaited). -/
inductive JsVal where
  | jsNull
  | jsPromise
  | buf (bytes : List Nat)
  deriving DecidableEq, Repr

/-- core.ts line 382: the value assigned by `buffer = rs.read()`.  `ReadStream.read` is
`async`, so without `await` the expression evaluates to a pending Promise object,
regardless of the stream's contents. -/
def rsReadNoAwait : JsVal := .jsPromise

/-- JS loose equality `== null`: true exactly for `null`/`undefined`; an object (such as
a Promise) or a buffer is never loosely equal to null. -/
def jsLooseEqNull : JsVal → Bool
  | .jsNull => true
  | .jsPromise => false
  | .buf _ => false

/-- core.ts lines 380-387: `while ((buffer = rs.read()) == null) { ws.write(buffer); }`.
The result is the list of values passed to `ws.write`, appended to the writes already
made; `fuel` bounds the number of iterations (the loop in fact exits immediately). -/
def coreCopyLoop : Nat → List JsVal → List JsVal
  | 0, written => written
  | fuel + 1, written =>
      let buffer := rsReadNoAwait
      if jsLooseEqNull buffer then coreCopyLoop fuel (written ++ [buffer]) else written

/-- Bytes a written JS value contributes to the destination file. -/
def jsValBytes : JsVal → List Nat
  | .jsNull => []
  | .jsPromise => []
  | .buf bytes => bytes

/-- Outcome of core.ts `AbstractFileSystemObject.copy` / `.move` on a File: the new
backend state, the error list the call returns, and the thrown error if any. -/
structure CoreXmitResult where
  fsAfter : MemFS
  errors : List (String × String × ErrName)
  result : Except FsError Unit
  deriving Repr

/-- core.ts `AbstractFile._xmit` (lines 347-398) run under
`AbstractFileSystemObject.copy`/`.move` (lines 168-196), with no hooks registered.
Steps: `this.stat()` (NotFound propagates); open a read stream on the source; decide
`create` by stat-ing the destination (NotFound means create); open the write stream
(which creates/truncates the destination, cf. a `w`-mode open in the node adapter); run
the copy loop of lines 380-387; close both streams.  Then, when moving, lines 392-397
execute `if (move) { try { } catch (error) { copyErrors.push(...) } }` -- the try block
is empty, so nothing is deleted and the catch can never run. -/
def coreFileXmit (fs : MemFS) (fromP toP : String) (move : Bool) (fuel : Nat) :
    CoreXmitResult :=
  match fs.headPrim fromP with
  | .error e => ⟨fs, [], .error e⟩
  | .ok _ =>
    match fs.headPrim toP with
    | .error e =>
      if e.name = .NotFound then
        -- create = true
        let written := coreCopyLoop fuel []
        let fs1 := fs.setFile toP (written.flatMap jsValBytes)
        -- lines 392-397: `if (move) { try { } catch (error) { copyErrors.push(...) } }`
        -- the try block is empty, so nothing is deleted and nothing can be pushed
        let pushed : List (String × String × ErrName) := if move then [] else []
        ⟨fs1, pushed, .ok ()⟩
      else ⟨fs, [], .error e⟩
    | .ok _ =>
      -- create = false: the destination is opened for overwrite
      let written := coreCopyLoop fuel []
      let fs1 := fs.setFile toP (written.flatMap jsValBytes)
      let pushed : List (String × String × ErrName) := if move then [] else []
      ⟨fs1, pushed, .ok ()⟩

/- ## The pipe-based copy of src/src/core/AbstractFile.ts (lines 76-101) -/

/-- Modelled from the spec: `AbstractReadStream.pipe` (AbstractReadStream.ts is not under
src/), used by AbstractFile.ts line 95 (`await rs.pipe(ws)`).  Spec section 4.3 step 4:
"copy all bytes through the buffered channel (buffer size from CopyOptions.bufferSize)".
Reads successive chunks of at most `bs` bytes and hands each to the write stream until
the source is exhausted; `fuel` bounds the number of reads. -/
def pipeChunks : Nat → Nat → List Nat → List (List Nat)
  | 0, _, l => [l]
  | _ + 1, _, [] => []
  | fuel + 1, bs, x :: xs => (x :: xs).take bs :: pipeChunks fuel bs ((x :: xs).drop bs)

/-- The destination content produced by piping `src` through chunks of size `bs`. -/
def pipeCopy (fuel bs : Nat) (src : List Nat) : List Nat :=
  (pipeChunks fuel bs src).flatten

/- ## The canonical xmit engine (part_000 AbstractFile._xmit, part_007 AbstractDirectory._xmit) -/

/-- XmitOptions of the part_000/part_007 vintage. -/
structure XmitOptions4 where
  force : Bool
  recursive : Bool
  ignoreHook : Bool
  deriving DecidableEq, Repr

/-- One accumulated per-node copy error: `{...error, from: fromPath, to: toPath}`
(part_007 line 137); `toPath` is undefined when the failure happened before it was
computed. -/
structure CopyErr where
  err : FsError
  fromPath : String
  toPath : Option String
  deriving DecidableEq, Repr

/-- part_007 `AbstractDirectory.mkcol` (lines 179-231) with no hooks, called by `_xmit`
with `recursive: false`.  `_checkDirectory` heads the path: stats with a size mean the
path is a file (TypeMismatch); an existing directory is a SecurityError unless `force`
(with `force` the call is a no-op success); a NotFound falls through (no parent chain,
recursive is false) to the backend `_mkcol`.  Errors re-thrown through `createError`
keep their classification. -/
def mkcol4 (fs : MemFS) (p : String) (force : Bool) : MemFS × Option FsError :=
  match fs.headPrim p with
  | .ok stats =>
      match stats.size with
      | some _ => (fs, some ⟨.TypeMismatch, p⟩)
      | none => if force then (fs, none) else (fs, some ⟨.SecurityError, p⟩)
  | .error e =>
      if e.name = .NotFound then (fs.setDir p, none)
      else (fs, some e)

/-- part_007 `_checkDirectory` (lines 241-252): head the path; stats carrying a size
mean it is not a directory (TypeMismatch); head failures (e.g. NotFound) propagate. -/
def checkDirectory4 (fs : MemFS) (p : String) : Option FsError :=
  match fs.headPrim p with
  | .error e => some e
  | .ok stats =>
      match stats.size with
      | some _ => some ⟨.TypeMismatch, p⟩
      | none => none

/-- Drop `lead` from the front of a list when it is there. -/
def chopLead : List Char → List Char → Option (List Char)
  | [], cs => some cs
  | _ :: _, [] => none
  | p :: ps, c :: cs => if p = c then chopLead ps cs else none

/-- Whether `child` is an immediate child path of `parent`: `parent ++ "/" ++ name` with
a nonempty, slash-free name (for the root, `"/" ++ name`). -/
def isChildOf (parent child : String) : Bool :=
  let base := if parent = "/" then [] else parent.data
  match chopLead (base ++ ['/']) child.data with
  | some rest => rest ≠ [] ∧ rest.all (fun c => c ≠ '/')
  | none => false

/-- Backend primitive `_list`: the immediate children of a directory path, as full
paths (the node adapter joins the directory path with each name). -/
def listPrim (fs : MemFS) (p : String) : List String :=
  (fs.entries.filter (fun kv => isChildOf p kv.1)).map Prod.fst

/-- part_007 `AbstractDirectory.list` (lines 159-175) with no hooks: for a non-root path
first `_checkDirectory` (so a file path or a missing path fails), then the backend
`_list`. -/
def list4 (fs : MemFS) (p : String) : Except FsError (List String) :=
  if p = "/" then .ok (listPrim fs p)
  else
    match checkDirectory4 fs p with
    | some e => .error e
    | none => .ok (listPrim fs p)

/-- part_000 `AbstractFile._xmit` (lines 128-164) with no hooks.  The destination must
not be a Directory entry (TypeMismatch).  Head the destination: when it exists and
`force` is not set, throw a SecurityError (the catch re-wraps it, preserving its
classification); when the head fails with anything but NotFound, that error propagates;
NotFound falls through.  Then `getSource` on the source and `to.write(source, ...)`
(the whole-file write with no explicit create/append options). -/
def fileXmit4 (fs : MemFS) (fromP : String) (toKind : EKind) (toP : String)
    (opts : XmitOptions4) : MemFS × Option FsError :=
  if toKind = .d then (fs, some ⟨.TypeMismatch, toP⟩)
  else
    let proceed : Option FsError :=
      match fs.headPrim toP with
      | .ok _ => if opts.force then none else some ⟨.SecurityError, toP⟩
      | .error e => if e.name = .NotFound then none else some e
    match proceed with
    | some e => (fs, some e)
    | none =>
      match getSourcePrim fs fromP with
      | .error e => (fs, some e)
      | .ok src =>
        let w := fileWrite noWriteHooks fs toP src none
        match w.result with
        | .ok _ => (w.fsAfter, none)
        | .error e => (w.fsAfter, some e)

/-- Type of the directory-xmit continuation handed to the child step: the recursive
`_xmit` call on a child Directory entry (the fuel-indexed `dirXmit4` at the call site). -/
abbrev DirXmitFn :=
  MemFS → String → EKind → String → XmitOptions4 → List CopyErr →
    MemFS × List CopyErr × Option FsError

/-- The body of one iteration of the child loop of part_007 `AbstractDirectory._xmit`
(lines 123-138), i.e. the contents of the `try` block: head the child, dispatch File
vs Directory on `stats.size != null`, compute the destination child path, build the
matching destination entry, and recurse into the child's `_xmit`.  The result carries
the (possibly partially mutated) state, the shared error list as extended by nested
pushes, and -- when the body threw -- the error together with the `toPath` that had
been computed by then (`undefined`/none when the throw happened earlier). -/
def xmitChild4 (recur : DirXmitFn) (fs : MemFS) (toDirP c : String)
    (opts : XmitOptions4) (errs : List CopyErr) :
    MemFS × List CopyErr × Option (FsError × Option String) :=
  match fs.headPrim c with
  | .error e => (fs, errs, some (e, none))
  | .ok stats =>
    match getName c with
    | .error e => (fs, errs, some (e, none))
    | .ok nm =>
      match joinPaths toDirP nm with
      | .error e => (fs, errs, some (e, none))
      | .ok toP =>
        match canonSizeDispatch stats with
        | .f =>
          match fileXmit4 fs c .f toP opts with
          | (fs1, none) => (fs1, errs, none)
          | (fs1, some e) => (fs1, errs, some (e, some toP))
        | .d =>
          match recur fs c .d toP opts errs with
          | (fs1, errs1, none) => (fs1, errs1, none)
          | (fs1, errs1, some e) => (fs1, errs1, some (e, some toP))

/-- The child loop of part_007 `AbstractDirectory._xmit` (lines 122-139): process every
child in order; a child whose step throws has `{...error, from: child, to: toPath}`
appended to the shared error list and the loop continues with the remaining children.
The third component lists the children that were processed. -/
def xmitLoop4 (recur : DirXmitFn) (fs : MemFS) (toDirP : String)
    (children : List String) (opts : XmitOptions4) (errs : List CopyErr) :
    MemFS × List CopyErr × List String :=
  match children with
  | [] => (fs, errs, [])
  | c :: cs =>
    match xmitChild4 recur fs toDirP c opts errs with
    | (fs1, errs1, none) =>
        let r := xmitLoop4 recur fs1 toDirP cs opts errs1
        (r.1, r.2.1, c :: r.2.2)
    | (fs1, errs1, some (e, tp)) =>
        let r := xmitLoop4 recur fs1 toDirP cs opts (errs1 ++ [⟨e, c, tp⟩])
        (r.1, r.2.1, c :: r.2.2)

/-- part_007 `AbstractDirectory._xmit` (lines 97-140) with no hooks, by recursion on
`fuel` (each level of directory nesting consumes one unit; the loop itself is structural
on the children).  The destination must not be a File entry (TypeMismatch); `mkcol` the
destination with `recursive: false`; stop when the copy is not recursive; list the
children of the source; run the child loop. -/
def dirXmit4 : Nat → DirXmitFn
  | 0 => fun fs fromP _toKind _toP _opts errs => (fs, errs, some ⟨.NotReadable, fromP⟩)
  | fuel + 1 => fun fs fromP toKind toP opts errs =>
      if toKind = .f then (fs, errs, some ⟨.TypeMismatch, fromP⟩)
      else
        match mkcol4 fs toP opts.force with
        | (fs1, some e) => (fs1, errs, some e)
        | (fs1, none) =>
          if opts.recursive = false then (fs1, errs, none)
          else
            match list4 fs1 fromP with
            | .error e => (fs1, errs, some e)
            | .ok children =>
              let r := xmitLoop4 (dirXmit4 fuel) fs1 toP children opts errs
              (r.1, r.2.1, none)

/-- part_007 `_xmit` run under the entry-level `copy` wrapper (the error list starts
empty and is returned to the caller; cf. core.ts AbstractFileSystemObject.copy). -/
def dirCopy4 (fuel : Nat) (fs : MemFS) (fromP toP : String) (opts : XmitOptions4) :
    MemFS × List CopyErr × Option FsError :=
  dirXmit4 fuel fs fromP .d toP opts []

/- ## Helper lemmas -/

/-- Looking up the path a file was just written to yields that file. -/
theorem MemFS.lookup_setFile_self (fs : MemFS) (p : String) (c : List Nat) :
    (fs.setFile p c).lookup p = some (.file c) := by
  simp [MemFS.setFile, MemFS.lookup, List.find?]

/-- The copy loop of core.ts lines 380-387 performs no writes: the un-awaited
`rs.read()` yields a pending Promise, which is never loosely equal to null, so the loop
condition is false on entry and the body never runs. -/
theorem coreCopyLoop_no_writes : ∀ (fuel : Nat) (written : List JsVal),
    coreCopyLoop fuel written = written
  | 0, _ => rfl
  | _ + 1, _ => rfl

/-- Supporting fact for the pipe-based variant (src/src/core/AbstractFile.ts line 95):
piping a source through bounded chunks reproduces the source byte-for-byte, in order. -/
theorem pipeCopy_copies_all_bytes : ∀ (fuel bs : Nat) (src : List Nat),
    pipeCopy fuel bs src = src := by
  intro fuel
  induction fuel with
  | zero => intro bs src; simp [pipeCopy, pipeChunks]
  | succ n ih =>
      intro bs src
      cases src with
      | nil => simp [pipeCopy, pipeChunks]
      | cons x xs =>
          have h := ih bs ((x :: xs).drop bs)
          simp only [pipeCopy, pipeChunks, List.flatten_cons]
          simp only [pipeCopy] at h
          rw [h, List.take_append_drop]

/- ## Claim theorems -/

/-- C8: core.ts dispatches copy/move entries to File vs Directory handling with the JS
truthiness test `stats.size ?` (lines 151/154 and 264/269), so Stats carrying
`size = 0` -- an empty file -- are dispatched as a Directory, while the canonical
dispatch (`stats.size != null`, part_007 line 127 / part_006 line 183) and the claim
treat every defined size, including 0, as a File.  Evaluation at the failing input
`Stats{size: 0}`. -/
theorem c8_size_zero_dispatched_as_directory :
    coreSizeDispatch ⟨some 0⟩ = .d ∧
    coreSizeDispatch ⟨some 1⟩ = .f ∧
    coreSizeDispatch ⟨none⟩ = .d ∧
    canonSizeDispatch ⟨some 0⟩ = .f ∧
    canonSizeDispatch ⟨none⟩ = .d := by
  decide

/-- C1: evaluation of core.ts `AbstractFile._xmit` at the failing input: copying the
one-byte file `/a` to the absent `/b` completes without an error and with an empty error
list, yet `/b` is created with empty content -- no byte was copied, because the loop
`while ((buffer = rs.read()) == null) ws.write(buffer)` never executes (`rs.read()` is
not awaited; the pending Promise is never `== null`). -/
theorem c1_core_file_copy_writes_no_bytes (fuel : Nat) :
    (coreFileXmit ⟨[("/a", .file [1])]⟩ "/a" "/b" false fuel).result = .ok () ∧
    (coreFileXmit ⟨[("/a", .file [1])]⟩ "/a" "/b" false fuel).errors = [] ∧
    (coreFileXmit ⟨[("/a", .file [1])]⟩ "/a" "/b" false fuel).fsAfter.lookup "/b" =
      some (.file []) ∧
    (MemFS.lookup ⟨[("/a", .file [1])]⟩ "/a" = some (.file [1])) ∧
    Node.file [] ≠ Node.file [1] := by
  have hloop := coreCopyLoop_no_writes fuel []
  refine ⟨?_, ?_, ?_, ?_, by decide⟩ <;>
    simp [coreFileXmit, hloop, MemFS.headPrim, MemFS.lookup, MemFS.setFile, List.find?,
      List.filter]

/-- C2: evaluation of core.ts `AbstractFile._xmit` with `move = true` at the failing
input: moving the file `/a` to `/b` returns with an empty error list, yet the source
`/a` still exists afterwards -- the source deletion of lines 392-397 is an empty `try`
block, so it never runs (and its catch can never push an error). -/
theorem c2_core_move_leaves_source_in_place (fuel : Nat) :
    (coreFileXmit ⟨[("/a", .file [1])]⟩ "/a" "/b" true fuel).result = .ok () ∧
    (coreFileXmit ⟨[("/a", .file [1])]⟩ "/a" "/b" true fuel).errors = [] ∧
    (coreFileXmit ⟨[("/a", .file [1])]⟩ "/a" "/b" true fuel).fsAfter.lookup "/a" =
      some (.file [1]) := by
  have hloop := coreCopyLoop_no_writes fuel []
  refine ⟨?_, ?_, ?_⟩ <;>
    simp [coreFileXmit, hloop, MemFS.headPrim, MemFS.lookup, MemFS.setFile, List.find?,
      List.filter]

/-- Running stream operations changes `changed` exactly when a mutating operation
occurs, and touches none of the configuration or hook-counter fields. -/
theorem wsRun_fields (ops : List WSOp) : ∀ (s : WriteStreamSt),
    (wsRun s ops).changed = (s.changed || ops.any WSOp.isMutating) ∧
    (wsRun s ops).createOpt = s.createOpt ∧
    (wsRun s ops).ignoreHook = s.ignoreHook ∧
    (wsRun s ops).hasAfterPost = s.hasAfterPost ∧
    (wsRun s ops).hasAfterPut = s.hasAfterPut ∧
    (wsRun s ops).afterPostCalls = s.afterPostCalls ∧
    (wsRun s ops).afterPutCalls = s.afterPutCalls := by
  induction ops with
  | nil => intro s; simp [wsRun]
  | cons op ops ih =>
      intro s
      have h := ih (wsApply s op)
      have hrun : wsRun s (op :: ops) = wsRun (wsApply s op) ops := by
        simp [wsRun, List.foldl]
      rw [hrun]
      cases op with
      | write len => simpa [wsApply, WSOp.isMutating] using h
      | truncate size =>
          by_cases hlt : size < s.position <;>
            simpa [wsApply, WSOp.isMutating, hlt] using h
      | seek offset origin => simpa [wsApply, wsSeek, WSOp.isMutating] using h

/-- C9: AbstractWriteStream `close()` fires the create-or-update after hook
(`afterPost` when the stream was opened in create mode, `afterPut` otherwise) exactly
when some mutating call (`write` or `truncate`) occurred on the stream -- in particular,
a stream opened and closed without any mutating call (any number of seeks allowed)
triggers no write notification. -/
theorem c9_write_close_fires_only_after_mutation
    (cr ih hp hq : Bool) (size : Nat) (ops : List WSOp) :
    (wsClose (wsRun (initWS cr ih hp hq size) ops)).afterPostCalls =
      (if ops.any WSOp.isMutating = true ∧ ih = false ∧ hp = true ∧ cr = true
       then 1 else 0) ∧
    (wsClose (wsRun (initWS cr ih hp hq size) ops)).afterPutCalls =
      (if ops.any WSOp.isMutating = true ∧ ¬(ih = false ∧ hp = true ∧ cr = true) ∧
          ih = false ∧ hq = true ∧ cr = false
       then 1 else 0) := by
  obtain ⟨h1, h2, h3, h4, h5, h6, h7⟩ := wsRun_fields ops (initWS cr ih hp hq size)
  cases hAny : ops.any WSOp.isMutating <;>
    cases cr <;> cases ih <;> cases hp <;> cases hq <;>
      simp_all [wsClose, initWS]

/-- Running read operations touches neither the hook configuration nor the counter. -/
theorem rsRun_fields (ops : List RSOp) : ∀ (s : ReadStreamSt),
    (rsRun s ops).ignoreHook = s.ignoreHook ∧
    (rsRun s ops).hasAfterGet = s.hasAfterGet ∧
    (rsRun s ops).afterGetCalls = s.afterGetCalls := by
  induction ops with
  | nil => intro s; simp [rsRun]
  | cons op ops ih =>
      intro s
      have h := ih (rsApply s op)
      have hrun : rsRun s (op :: ops) = rsRun (rsApply s op) ops := by
        simp [rsRun, List.foldl]
      rw [hrun]
      cases op <;> simpa [rsApply] using h

/-- C10: core.ts ReadStream `close()` invokes `afterGet` whenever it is registered and
`ignoreHook` is not set, for every sequence of prior operations -- including the empty
one; unlike the write side there is no guard on `handled`. -/
theorem c10_read_close_always_fires_afterGet (ih hg : Bool) (ops : List RSOp) :
    (rsClose (rsRun (initRS ih hg) ops)).afterGetCalls =
      (if ih = false ∧ hg = true then 1 else 0) := by
  obtain ⟨h1, h2, h3⟩ := rsRun_fields ops (initRS ih hg)
  cases ih <;> cases hg <;> simp_all [rsClose, initRS]

/-- C4: create-vs-overwrite semantics of opening a write stream (core.ts
`AbstractFile.openWriteStream`) and of the whole-file write (part_000
`AbstractFile.write`): `create === false` on an absent path fails with NotFound;
`create === true` on an existing path fails with PathExists; with `create` unspecified,
absence selects create mode and presence selects overwrite mode, without error. -/
theorem c4_write_create_semantics (fs : MemFS) (pa pp : String) (old src : List Nat)
    (ha : fs.lookup pa = none) (hp : fs.lookup pp = some (.file old)) :
    ((coreOpenWriteStream noOWSHooks fs pa (some false) false).result =
        .error ⟨.NotFound, pa⟩ ∧
      (fileWrite noWriteHooks fs pa src (some ⟨none, some false⟩)).result =
        .error ⟨.NotFound, pa⟩ ∧
      (fileWrite noWriteHooks fs pa src (some ⟨none, some false⟩)).fsAfter = fs ∧
      (fileWrite noWriteHooks fs pa src (some ⟨none, some false⟩)).primWrites = 0) ∧
    ((coreOpenWriteStream noOWSHooks fs pp (some true) false).result =
        .error ⟨.PathExists, pp⟩ ∧
      (fileWrite noWriteHooks fs pp src (some ⟨none, some true⟩)).result =
        .error ⟨.PathExists, pp⟩ ∧
      (fileWrite noWriteHooks fs pp src (some ⟨none, some true⟩)).fsAfter = fs) ∧
    ((coreOpenWriteStream noOWSHooks fs pa none false).result = .ok true ∧
      (fileWrite noWriteHooks fs pa src none).result = .ok () ∧
      (fileWrite noWriteHooks fs pa src none).createMode = some true ∧
      (fileWrite noWriteHooks fs pa src none).fsAfter.lookup pa = some (.file src)) ∧
    ((coreOpenWriteStream noOWSHooks fs pp none false).result = .ok false ∧
      (fileWrite noWriteHooks fs pp src none).result = .ok () ∧
      (fileWrite noWriteHooks fs pp src none).createMode = some false ∧
      (fileWrite noWriteHooks fs pp src none).fsAfter.lookup pp = some (.file src)) := by
  have hha : fs.headPrim pa = .error ⟨.NotFound, pa⟩ := by
    simp [MemFS.headPrim, ha]
  have hhp : fs.headPrim pp = .ok ⟨some old.length⟩ := by
    simp [MemFS.headPrim, hp]
  refine ⟨⟨?_, ?_, ?_, ?_⟩, ⟨?_, ?_, ?_⟩, ⟨?_, ?_, ?_, ?_⟩, ⟨?_, ?_, ?_, ?_⟩⟩ <;>
    simp [coreOpenWriteStream, fileWrite, fileWriteGo, noOWSHooks, noWriteHooks,
      createError, hha, hhp, MemFS.lookup_setFile_self]

/-- C4 witness: the theorem applied at a concrete backend holding the file `/f` and the
absent path `/g`. -/
theorem c4_write_create_semantics_witness :
    (coreOpenWriteStream noOWSHooks ⟨[("/f", .file [2])]⟩ "/g" (some false) false).result =
      .error ⟨.NotFound, "/g"⟩ ∧
    (coreOpenWriteStream noOWSHooks ⟨[("/f", .file [2])]⟩ "/f" (some true) false).result =
      .error ⟨.PathExists, "/f"⟩ ∧
    (fileWrite noWriteHooks ⟨[("/f", .file [2])]⟩ "/g" [5] none).createMode = some true ∧
    (fileWrite noWriteHooks ⟨[("/f", .file [2])]⟩ "/f" [5] none).createMode = some false := by
  have h := c4_write_create_semantics ⟨[("/f", .file [2])]⟩ "/g" "/f" [2] [5] rfl rfl
  exact ⟨h.1.1, h.2.1.1, h.2.2.1.2.2.1, h.2.2.2.2.2.1⟩

/-- C5: `head` on an absent path fails with NotFound in both fs-level variants: core.ts
`AbstractFileSystem.head` propagates the backend's NotFound untouched, and part_006
`AbstractFileSystem.head` re-raises it through `createError`, which leaves the
already-classified NotFound unchanged rather than reclassifying it. -/
theorem c5_head_absent_fails_notfound (sd : Bool) (fs : MemFS) (path checked : String)
    (h1 : endsWithSlash path = false)
    (h2 : checkPath path = .ok checked)
    (h3 : fs.lookup checked = none)
    (h4 : fs.lookup path = none) :
    (fsHead sd noHeadHooks fs path ⟨false, none⟩).result = .error ⟨.NotFound, checked⟩ ∧
    (coreHead noHeadHooks fs path false).result = .error ⟨.NotFound, path⟩ := by
  have hhc : fs.headPrim checked = .error ⟨.NotFound, checked⟩ := by
    simp [MemFS.headPrim, h3]
  have hhp : fs.headPrim path = .error ⟨.NotFound, path⟩ := by
    simp [MemFS.headPrim, h4]
  constructor
  · simp [fsHead, noHeadHooks, h1, h2, hhc, createError]
  · simp [coreHead, noHeadHooks, hhp]

/-- C5 witness: `head("/nothing")` on an empty backend fails with NotFound. -/
theorem c5_head_absent_fails_notfound_witness :
    (fsHead true noHeadHooks ⟨[]⟩ "/nothing" ⟨false, none⟩).result =
      .error ⟨.NotFound, "/nothing"⟩ ∧
    (coreHead noHeadHooks ⟨[]⟩ "/nothing" false).result = .error ⟨.NotFound, "/nothing"⟩ :=
  c5_head_absent_fails_notfound true ⟨[]⟩ "/nothing" "/nothing" rfl rfl rfl rfl

/-- C6: a before hook supplying a non-null result suppresses the backend primitive and
its result becomes the operation's result: for part_006 `head`, core.ts `head`, and
part_000 `getSource` (read-open), the primitive runs zero times and the hook's value is
returned. -/
theorem c6_before_hook_suppresses_primitive (sd : Bool) (s : Stats) (bs : List Nat)
    (fs : MemFS) (path checked : String) (hasAfter : Bool)
    (h1 : endsWithSlash path = false)
    (h2 : checkPath path = .ok checked) :
    ((fsHead sd ⟨some (fun _ => some s), hasAfter⟩ fs path ⟨false, none⟩).primCalls = 0 ∧
      (fsHead sd ⟨some (fun _ => some s), hasAfter⟩ fs path ⟨false, none⟩).result = .ok s) ∧
    ((coreHead ⟨some (fun _ => some s), hasAfter⟩ fs path false).primCalls = 0 ∧
      (coreHead ⟨some (fun _ => some s), hasAfter⟩ fs path false).result = .ok s) ∧
    ((fileGetSource ⟨some (fun _ => some bs), hasAfter⟩ fs path false).primCalls = 0 ∧
      (fileGetSource ⟨some (fun _ => some bs), hasAfter⟩ fs path false).result = .ok bs) := by
  refine ⟨⟨?_, ?_⟩, ⟨?_, ?_⟩, ⟨?_, ?_⟩⟩ <;>
    simp [fsHead, coreHead, fileGetSource, h1, h2]

/-- C6 witness: the theorem applied at the path "/x" with hook stats of size 3 and hook
source bytes [7]. -/
theorem c6_before_hook_suppresses_primitive_witness :
    (fsHead true ⟨some (fun _ => some ⟨some 3⟩), true⟩ ⟨[]⟩ "/x" ⟨false, none⟩).primCalls = 0 ∧
    (fsHead true ⟨some (fun _ => some ⟨some 3⟩), true⟩ ⟨[]⟩ "/x" ⟨false, none⟩).result =
      .ok ⟨some 3⟩ := by
  have h := c6_before_hook_suppresses_primitive true ⟨some 3⟩ [7] ⟨[]⟩ "/x" "/x" true rfl rfl
  exact h.1

/-- C7 counterexample: with `beforeHead` supplying stats and `afterHead` registered,
part_006 `head` short-circuits the primitive (zero `_head` executions) and yet fires
`afterHead` -- with the hook-supplied stats; likewise the read side fires `afterGet`
after a `beforeGet` short-circuit.  This refutes the claim that the after hook does not
fire on a before-hook short-circuit. -/
theorem c7_after_hook_fires_despite_short_circuit :
    (fsHead true ⟨some (fun _ => some ⟨some 3⟩), true⟩ ⟨[]⟩ "/x" ⟨false, none⟩).primCalls = 0 ∧
    (fsHead true ⟨some (fun _ => some ⟨some 3⟩), true⟩ ⟨[]⟩ "/x" ⟨false, none⟩).afterCalls =
      [("/x", ⟨some 3⟩)] ∧
    (fileGetSource ⟨some (fun _ => some [7]), true⟩ ⟨[]⟩ "/x" false).primCalls = 0 ∧
    (fileGetSource ⟨some (fun _ => some [7]), true⟩ ⟨[]⟩ "/x" false).afterCalls =
      [("/x", [7])] := by
  refine ⟨rfl, ?_, rfl, ?_⟩ <;> rfl

/-- C7 amended: for the value-supplying before hooks (head, read/getSource) a non-null
hook result suppresses the backend primitive but the after hook still fires, with the
hook-supplied result -- while, as the claim states, the after hook does not fire when
the operation fails (the primitive raised) -- and for the boolean before hooks of the
write side (beforePost/beforePut) a short-circuit suppresses both the primitive and the
after hook. -/
theorem c7_after_hook_semantics (s : Stats) (bs src : List Nat) (fs : MemFS)
    (path checked : String)
    (h1 : endsWithSlash path = false)
    (h2 : checkPath path = .ok checked)
    (h3 : fs.lookup path = none)
    (h4 : fs.lookup checked = none) :
    ((fsHead true ⟨some (fun _ => some s), true⟩ fs path ⟨false, none⟩).primCalls = 0 ∧
      (fsHead true ⟨some (fun _ => some s), true⟩ fs path ⟨false, none⟩).afterCalls =
        [(checked, s)] ∧
      (coreHead ⟨some (fun _ => some s), true⟩ fs path false).primCalls = 0 ∧
      (coreHead ⟨some (fun _ => some s), true⟩ fs path false).afterCalls = [(path, s)] ∧
      (fileGetSource ⟨some (fun _ => some bs), true⟩ fs path false).primCalls = 0 ∧
      (fileGetSource ⟨some (fun _ => some bs), true⟩ fs path false).afterCalls =
        [(path, bs)]) ∧
    ((fsHead true ⟨none, true⟩ fs path ⟨false, none⟩).afterCalls = [] ∧
      (fileGetSource ⟨none, true⟩ fs path false).afterCalls = []) ∧
    ((fileWrite ⟨some (fun _ _ => true), none, true, true⟩ fs path src none).result =
        .ok () ∧
      (fileWrite ⟨some (fun _ _ => true), none, true, true⟩ fs path src none).primWrites = 0 ∧
      (fileWrite ⟨some (fun _ _ => true), none, true, true⟩ fs path src none).afterPostCalls
        = [] ∧
      (fileWrite ⟨some (fun _ _ => true), none, true, true⟩ fs path src none).afterPutCalls
        = []) := by
  have hhc : fs.headPrim checked = .error ⟨.NotFound, checked⟩ := by
    simp [MemFS.headPrim, h4]
  have hhp : fs.headPrim path = .error ⟨.NotFound, path⟩ := by
    simp [MemFS.headPrim, h3]
  refine ⟨⟨?_, ?_, ?_, ?_, ?_, ?_⟩, ⟨?_, ?_⟩, ⟨?_, ?_, ?_, ?_⟩⟩ <;>
    simp [fsHead, coreHead, fileGetSource, fileWrite, fileWriteGo, getSourcePrim,
      h1, h2, h3, hhc, hhp, createError]

/-- C7 amended witness: the theorem applied at the absent path "/x" of an empty backend. -/
theorem c7_after_hook_semantics_witness :
    (fsHead true ⟨some (fun _ => some ⟨some 3⟩), true⟩ ⟨[]⟩ "/x" ⟨false, none⟩).afterCalls =
      [("/x", ⟨some 3⟩)] ∧
    (fileWrite ⟨some (fun _ _ => true), none, true, true⟩ ⟨[]⟩ "/x" [5] none).afterPostCalls
      = [] := by
  have h := c7_after_hook_semantics ⟨some 3⟩ [7] [5] ⟨[]⟩ "/x" "/x" rfl rfl rfl rfl
  exact ⟨h.1.2.1, h.2.2.2.2.1⟩

/- ## Fault isolation of the directory walk (claim C3) -/

/-- A directory-xmit continuation only ever appends to the shared error list. -/
def ErrsAppendOnly (recur : DirXmitFn) : Prop :=
  ∀ fs fromP toKind toP opts errs,
    ∃ extra, (recur fs fromP toKind toP opts errs).2.1 = errs ++ extra

/-- One child step only ever appends to the shared error list. -/
theorem xmitChild4_errs_append (recur : DirXmitFn) (h : ErrsAppendOnly recur)
    (fs : MemFS) (toDirP c : String) (opts : XmitOptions4) (errs : List CopyErr) :
    ∃ extra, (xmitChild4 recur fs toDirP c opts errs).2.1 = errs ++ extra := by
  unfold xmitChild4
  cases hh : fs.headPrim c with
  | error e => exact ⟨[], by simp [hh]⟩
  | ok stats =>
    cases hn : getName c with
    | error e => exact ⟨[], by simp [hh, hn]⟩
    | ok nm =>
      cases hj : joinPaths toDirP nm with
      | error e => exact ⟨[], by simp [hh, hn, hj]⟩
      | ok toP =>
        cases hk : canonSizeDispatch stats with
        | f =>
            cases hf : fileXmit4 fs c .f toP opts with
            | mk fs1 thrown =>
              cases thrown with
              | none => exact ⟨[], by simp [hh, hn, hj, hk, hf]⟩
              | some e => exact ⟨[], by simp [hh, hn, hj, hk, hf]⟩
        | d =>
            obtain ⟨extra, hx⟩ := h fs c .d toP opts errs
            cases hr : recur fs c .d toP opts errs with
            | mk fs1 rest =>
              cases rest with
              | mk errs1 thrown =>
                rw [hr] at hx
                simp only at hx
                cases thrown with
                | none => exact ⟨extra, by simp [hh, hn, hj, hk, hr, hx]⟩
                | some e => exact ⟨extra, by simp [hh, hn, hj, hk, hr, hx]⟩

/-- The child loop only ever appends to the shared error list. -/
theorem xmitLoop4_errs_append (recur : DirXmitFn) (h : ErrsAppendOnly recur) :
    ∀ (children : List String) (fs : MemFS) (toDirP : String) (opts : XmitOptions4)
      (errs : List CopyErr),
      ∃ extra, (xmitLoop4 recur fs toDirP children opts errs).2.1 = errs ++ extra := by
  intro children
  induction children with
  | nil => intro fs toDirP opts errs; exact ⟨[], by simp [xmitLoop4]⟩
  | cons c cs ih =>
      intro fs toDirP opts errs
      obtain ⟨e1, he1⟩ := xmitChild4_errs_append recur h fs toDirP c opts errs
      unfold xmitLoop4
      split
      · next fs1 errs1 heq =>
          rw [heq] at he1
          simp only at he1
          subst he1
          obtain ⟨e2, he2⟩ := ih fs1 toDirP opts (errs ++ e1)
          refine ⟨e1 ++ e2, ?_⟩
          show (xmitLoop4 recur fs1 toDirP cs opts (errs ++ e1)).2.1 = errs ++ (e1 ++ e2)
          rw [he2, List.append_assoc]
      · next fs1 errs1 e tp heq =>
          rw [heq] at he1
          simp only at he1
          subst he1
          obtain ⟨e2, he2⟩ := ih fs1 toDirP opts ((errs ++ e1) ++ [⟨e, c, tp⟩])
          refine ⟨e1 ++ [⟨e, c, tp⟩] ++ e2, ?_⟩
          show (xmitLoop4 recur fs1 toDirP cs opts ((errs ++ e1) ++ [⟨e, c, tp⟩])).2.1 =
            errs ++ (e1 ++ [⟨e, c, tp⟩] ++ e2)
          rw [he2]
          simp [List.append_assoc]

/-- The directory `_xmit` of part_007 only ever appends to the shared error list, for
every fuel. -/
theorem dirXmit4_errs_append : ∀ fuel, ErrsAppendOnly (dirXmit4 fuel) := by
  intro fuel
  induction fuel with
  | zero => intro fs fromP toKind toP opts errs; exact ⟨[], by simp [dirXmit4]⟩
  | succ n ih =>
      intro fs fromP toKind toP opts errs
      unfold dirXmit4
      by_cases hk : toKind = .f
      · exact ⟨[], by simp [hk]⟩
      · simp only [hk, if_false]
        cases hm : mkcol4 fs toP opts.force with
        | mk fs1 thrown =>
          cases thrown with
          | some e => exact ⟨[], by simp⟩
          | none =>
            by_cases hr : opts.recursive = false
            · exact ⟨[], by simp [hr]⟩
            · simp only [hr, if_false]
              cases list4 fs1 fromP with
              | error e => exact ⟨[], by simp⟩
              | ok children =>
                  obtain ⟨extra, hx⟩ := xmitLoop4_errs_append (dirXmit4 n) ih children
                    fs1 toP opts errs
                  exact ⟨extra, by simp [hx]⟩

/-- The child loop visits every child, regardless of which child steps fail. -/
theorem xmitLoop4_visits_all_children (recur : DirXmitFn) :
    ∀ (children : List String) (fs : MemFS) (toDirP : String) (opts : XmitOptions4)
      (errs : List CopyErr),
      (xmitLoop4 recur fs toDirP children opts errs).2.2 = children := by
  intro children
  induction children with
  | nil => intro fs toDirP opts errs; simp [xmitLoop4]
  | cons c cs ih =>
      intro fs toDirP opts errs
      unfold xmitLoop4
      split
      · next fs1 errs1 heq => simp [ih]
      · next fs1 errs1 e tp heq => simp [ih]

/-- C3: during the recursive directory walk of part_007 `AbstractDirectory._xmit`,
(1) the child loop visits every child, whatever fails;
(2) the shared error list is only appended to (accumulated), at every fuel;
(3) a failing child step appends exactly one entry identifying that child's from/to and
the loop continues with the remaining siblings;
(4) once the walk has reached its child loop (the destination directory was created and
the children were listed), the directory `_xmit` itself throws nothing -- per-child
failures never escape. -/
theorem c3_child_failures_accumulated_walk_continues :
    (∀ (recur : DirXmitFn) (children : List String) (fs : MemFS) (toDirP : String)
        (opts : XmitOptions4) (errs : List CopyErr),
        (xmitLoop4 recur fs toDirP children opts errs).2.2 = children) ∧
    (∀ (fuel : Nat) (fs : MemFS) (fromP : String) (toKind : EKind) (toP : String)
        (opts : XmitOptions4) (errs : List CopyErr),
        ∃ extra, (dirXmit4 fuel fs fromP toKind toP opts errs).2.1 = errs ++ extra) ∧
    (∀ (recur : DirXmitFn) (fs : MemFS) (toDirP c : String) (cs : List String)
        (opts : XmitOptions4) (errs : List CopyErr) (fs1 : MemFS)
        (errs1 : List CopyErr) (e : FsError) (tp : Option String),
        xmitChild4 recur fs toDirP c opts errs = (fs1, errs1, some (e, tp)) →
        xmitLoop4 recur fs toDirP (c :: cs) opts errs =
          (let r := xmitLoop4 recur fs1 toDirP cs opts (errs1 ++ [⟨e, c, tp⟩])
           (r.1, r.2.1, c :: r.2.2))) ∧
    (∀ (fuel : Nat) (fs fs1 : MemFS) (fromP toP : String) (opts : XmitOptions4)
        (errs : List CopyErr) (children : List String),
        opts.recursive = true →
        mkcol4 fs toP opts.force = (fs1, none) →
        list4 fs1 fromP = .ok children →
        (dirXmit4 (fuel + 1) fs fromP .d toP opts errs).2.2 = none) := by
  refine ⟨xmitLoop4_visits_all_children, dirXmit4_errs_append, ?_, ?_⟩
  · intro recur fs toDirP c cs opts errs fs1 errs1 e tp h
    conv_lhs => unfold xmitLoop4
    split
    · next fs2 errs2 heq =>
        rw [h] at heq
        simp at heq
    · next fs2 errs2 e2 tp2 heq =>
        rw [h] at heq
        simp only [Prod.mk.injEq, Option.some.injEq] at heq
        obtain ⟨ha, hb, hc2, hd⟩ := heq
        subst ha
        subst hb
        subst hc2
        subst hd
        rfl
  · intro fuel fs fs1 fromP toP opts errs children h1 h2 h3
    unfold dirXmit4
    simp [h1, h2, h3]

/-- Concrete directory tree for the C3 witness: copying `/d` (containing the directory
`/d/s` and the file `/d/z`) onto `/e`, where `/e/s` already exists as a file, makes the
child `/d/s` fail with a TypeMismatch while the sibling `/d/z` is still copied. -/
def wfs : MemFS :=
  ⟨[("/d", .dir), ("/d/s", .dir), ("/d/z", .file [7]), ("/e", .dir), ("/e/s", .file [9])]⟩

/-- Options of the C3 witness run: a forced recursive copy. -/
def copts : XmitOptions4 := ⟨true, true, false⟩

/-- C3 witness: the theorem applied to the concrete tree.  The failing child `/d/s`
is pushed as from `/d/s` / to `/e/s` and the loop continues with `/d/z`; the walk of
`/d` throws nothing; afterwards the error list holds exactly that one entry, the
sibling `/d/z` was copied to `/e/z`, and both children were visited. -/
theorem c3_child_failures_accumulated_walk_continues_witness :
    (xmitLoop4 (dirXmit4 3) wfs "/e" ["/d/s", "/d/z"] copts [] =
      (let r := xmitLoop4 (dirXmit4 3) wfs "/e" ["/d/z"] copts
        [⟨⟨.TypeMismatch, "/e/s"⟩, "/d/s", some "/e/s"⟩]
       (r.1, r.2.1, "/d/s" :: r.2.2))) ∧
    (dirXmit4 4 wfs "/d" .d "/e" copts []).2.2 = none := by
  constructor
  · exact c3_child_failures_accumulated_walk_continues.2.2.1 (dirXmit4 3) wfs "/e" "/d/s"
      ["/d/z"] copts [] wfs [] ⟨.TypeMismatch, "/e/s"⟩ (some "/e/s") rfl
  · exact c3_child_failures_accumulated_walk_continues.2.2.2 3 wfs wfs "/d" "/e" copts []
      ["/d/s", "/d/z"] rfl rfl rfl

end UnivFs
